import Mathlib

/-!
# Verification of the klarity uncertainty estimator

Shallow embedding of `src/klarity/estimator.py` and `src/klarity/models.py`
(klara-research/klarity).  Python floats are modelled as rationals; the
transcendental operations `exp` and `log` (from `math`/`numpy`/`torch`) are
threaded through as an abstract `MathOps` record, so that every statement is
about the *structure* of the computation, which is what the claims concern.
Fallible Python code (attribute errors, index errors, `raise ValueError`) is
modelled with `Except String`.
-/

/-- `models.py` `TokenInfo`: one candidate token. -/
structure TokenInfo where
  token : String
  token_id : Int
  logit : ℚ
  probability : ℚ
  deriving Repr, DecidableEq

/-- `models.py` `UncertaintyMetrics`: one per-generation-step bundle. -/
structure UncertaintyMetrics where
  raw_entropy : ℚ
  semantic_entropy : ℚ
  token_predictions : List TokenInfo
  insight : Option String := none
  deriving Repr, DecidableEq

/-- `models.py` `UncertaintyAnalysisResult`.  The pydantic model declares
exactly two fields: `token_metrics` and `overall_insight`.  (It declares no
`attention_data` field; see `mkResultWithAttention`.) -/
structure UncertaintyAnalysisResult where
  token_metrics : List UncertaintyMetrics
  overall_insight : Option String := none
  deriving Repr, DecidableEq

/-- Abstract payload standing for a tuple of attention tensors
(`generation_output.attentions`). -/
structure Attentions where
  data : List (List ℚ) := []
  deriving Repr, DecidableEq

/-- Abstract payload produced by `VLMAnalyzer.process_attention_maps`. -/
structure AttentionData where
  maps : List (String × List ℚ) := []
  deriving Repr, DecidableEq

/-- The slice of the `model` argument the estimator touches: only
`model.config.vision_config` is read (for the lazy vision-patch setup). -/
structure Model where
  vision_config : Nat := 0
  deriving Repr, DecidableEq

/-- The slice of the tokenizer interface the estimator uses:
`tokenizer.decode(ids)` on a list of token ids. -/
structure Tokenizer where
  decode : List Nat → String

/-- `UncertaintyLogitsProcessor` state: the captured per-step score tensors,
plus the optional `input_ids` attribute probed by `hasattr` on the VLM path
(modelled by its token list; only `shape[1]`, i.e. the length, is read). -/
structure Processor where
  captured_logits : List (List (List ℚ)) := []
  input_ids : Option (List Nat) := none

/-- `UncertaintyLogitsProcessor.__call__` (estimator.py:17-19): appends a
detached clone of `scores` to `captured_logits` and returns `scores` itself.
State is passed explicitly; the result pairs the new captured list with the
returned tensor. -/
def UncertaintyLogitsProcessor.call (captured_logits : List (List (List ℚ)))
    (input_ids : List Nat) (scores : List (List ℚ)) :
    List (List (List ℚ)) × List (List ℚ) :=
  (captured_logits ++ [scores], scores)

/-- One value of a vLLM per-step logprob dict: `logprob` and `decoded_token`
attributes (estimator.py:141). -/
structure VLLMLogprobEntry where
  logprob : ℚ
  decoded_token : String
  deriving Repr, DecidableEq

/-- One element of `generation_output.outputs`: `text` and `logprobs`
(a per-step list of token-id ↦ entry dicts, kept in insertion order,
or `None`). -/
structure VLLMOutput where
  text : String := ""
  logprobs : Option (List (List (Int × VLLMLogprobEntry))) := none

/-- The dict returned by `_generate_with_together` (estimator.py:79-84),
read back by the Together branch of `analyze_generation`
(estimator.py:175-178). -/
structure TogetherOutput where
  text : String := ""
  tokens : List String := []
  token_logprobs : List ℚ := []
  token_ids : List Int := []

/-- Duck-typed `generation_output`.  Each field models one structural probe
the orchestrator performs: `hasattr(..., "attentions")`,
`hasattr(..., "outputs")`, dict-style access for the Together shape,
`.sequences`, and `hasattr(..., "scores")`. -/
structure GenerationOutput where
  attentions : Option Attentions := none
  outputs : Option (List VLLMOutput) := none
  together : Option TogetherOutput := none
  sequences : List (List Nat) := []
  scores : Option (List (List (List ℚ))) := none

/-- The slice of `core/analyzer.py`'s analyzer objects the estimator touches.
`isVLM` models `isinstance(analyzer, VLMAnalyzer)`; the entropy methods and
`process_attention_maps` live in `core/analyzer.py` and are kept abstract
(the claims only concern how the estimator wires them); `insightBackend`
is the outbound call to the insight model, which may fail. -/
structure Analyzer where
  isVLM : Bool := false
  patch_size : Option Nat := none
  calc_raw_entropy : List ℚ → ℚ := fun _ => 0
  calc_semantic_entropy : List TokenInfo → ℚ := fun _ => 0
  process_attention_maps : Attentions → List String → AttentionData := fun _ _ => {}
  insightBackend : List UncertaintyMetrics → String → String → Option AttentionData →
    Except String String := fun _ _ _ _ => .ok ""

/-- The estimator's configuration state set by `__init__`
(estimator.py:23-34); the Together client itself is an external collaborator
and is not modelled beyond `together_model`. -/
structure EstimatorConfig where
  top_k : Nat
  analyzer : Option Analyzer := none
  together_model : Option String := none

/-- Abstract real-valued operations (`math.exp` / `np.exp` / `torch` log).
Claims about the adapters are structural and hold for any instantiation. -/
structure MathOps where
  exp : ℚ → ℚ
  log : ℚ → ℚ

/-- `UncertaintyEstimator.__init__` (estimator.py:23-34): the stored `top_k`
is forced to 5 (the API's logprob cap) whenever `together_model` is set. -/
def UncertaintyEstimator.init (top_k : Nat) (analyzer : Option Analyzer)
    (together_model : Option String) : EstimatorConfig :=
  { top_k := if together_model.isSome then 5 else top_k
    analyzer := analyzer
    together_model := together_model }

/-- Modelled from the spec: `core/analyzer.py` (absent from `src/`) defines
`generate_overall_insight`, which formats the aggregated metrics into a
request to the insight backend and returns its response; per §4.2/§7 of the
spec a failure of that call yields an absent insight rather than an
exception ("the insight field becomes empty/absent ... never raised as a
fatal error out of analyze_generation"). -/
def generate_overall_insight (a : Analyzer) (all_metrics : List UncertaintyMetrics)
    (input_query generated_text : String) (attention_data : Option AttentionData) :
    Option String :=
  match a.insightBackend all_metrics input_query generated_text attention_data with
  | .ok s => some s
  | .error _ => none

/-- The `UncertaintyAnalysisResult(...)` construction at estimator.py:227-231.
The call site passes an `attention_data` keyword, but the pydantic model in
`models.py` declares no such field, so pydantic's default extra-field
behaviour silently discards the argument. -/
def mkResultWithAttention (token_metrics : List UncertaintyMetrics)
    (overall_insight : Option String) (attention_data : Option AttentionData) :
    UncertaintyAnalysisResult :=
  { token_metrics := token_metrics, overall_insight := overall_insight }

/-- Descending stable sort by a rational key: the model of Python's
`list.sort(key=..., reverse=True)` (Timsort is stable; any two stable sorts
for the same total preorder agree, so insertion sort is a faithful model). -/
def sortDescBy (key : α → ℚ) (l : List α) : List α :=
  List.insertionSort (fun a b => key b ≤ key a) l

/-- Pair every element with its index, starting at `i` (model of tensor
indices as used by `torch.topk`). -/
def withIdx (i : Nat) : List α → List (Nat × α)
  | [] => []
  | x :: xs => (i, x) :: withIdx (i + 1) xs

/-- `torch.softmax(logits, dim=-1)` on one row: `exp xᵢ / Σ exp xⱼ`
(the library's max-subtraction is a numerical-stability identity that does
not change the mathematical value). -/
def softmaxRow (ops : MathOps) (row : List ℚ) : List ℚ :=
  let exps := row.map ops.exp
  let s := exps.sum
  exps.map (fun e => e / s)

/-- `torch.topk(xs, k)`: the `k` largest values with their indices, sorted
descending.  Raises (here: `none`) when `k` exceeds the number of elements,
exactly as `torch.topk` does. -/
def topkDesc (xs : List ℚ) (k : Nat) : Option (List (Nat × ℚ)) :=
  if k ≤ xs.length then some ((sortDescBy (fun p => p.2) (withIdx 0 xs)).take k) else none

/-- `UncertaintyEstimator._process_logits` (estimator.py:40-57): softmax the
first batch row, take the configured top-k probabilities with indices,
pair each with the corresponding raw logit and its decoded text. -/
def process_logits (ops : MathOps) (top_k : Nat) (tokenizer : Tokenizer)
    (logits : List (List ℚ)) : Except String (List TokenInfo) :=
  match logits.head? with
  | none => .error "IndexError"
  | some row =>
    let probs := softmaxRow ops row
    match topkDesc probs top_k with
    | none => .error "selected index k out of range"
    | some pairs =>
      .ok (pairs.map fun pr =>
        { token := tokenizer.decode [pr.1]
          token_id := (pr.1 : Int)
          logit := row.getD pr.1 0
          probability := pr.2 })

/-- `UncertaintyEstimator._process_together_logprob` (estimator.py:59-61). -/
def process_together_logprob (ops : MathOps) (logprob : ℚ) : ℚ :=
  ops.exp logprob

/-- vLLM branch, per-step candidate construction (estimator.py:140-153):
project the step's dict to `(token_id, logprob, decoded_token)` triples in
insertion order, stable-sort descending by logprob, truncate to `top_k`,
and build `TokenInfo` records with `probability = exp logprob`. -/
def vllmStepCandidates (ops : MathOps) (top_k : Nat)
    (token_data : List (Int × VLLMLogprobEntry)) : List TokenInfo :=
  let logprobs_items := token_data.map fun p => (p.1, p.2.logprob, p.2.decoded_token)
  let sorted := sortDescBy (fun x => x.2.1) logprobs_items
  (sorted.take top_k).map fun x =>
    { token := x.2.2, token_id := x.1, logit := x.2.1, probability := ops.exp x.2.1 }

/-- vLLM branch, per-step metrics (estimator.py:155-171): a step whose
candidate list is empty is skipped (`if token_info:`); otherwise entropies
are taken from the analyzer when present, else from the inline fallback. -/
def vllmStepMetrics (ops : MathOps) (analyzer : Option Analyzer) (top_k : Nat)
    (token_data : List (Int × VLLMLogprobEntry)) : Option UncertaintyMetrics :=
  let token_info := vllmStepCandidates ops top_k token_data
  if token_info.isEmpty then none
  else
    let probs := token_info.map (fun t => t.probability)
    some
      { raw_entropy :=
          match analyzer with
          | some a => a.calc_raw_entropy probs
          | none => -((probs.map fun p => p * ops.log p).sum)
        semantic_entropy :=
          match analyzer with
          | some a => a.calc_semantic_entropy token_info
          | none => 0
        token_predictions := token_info }

/-- vLLM branch, whole-generation loop (estimator.py:138-171). -/
def vllmMetrics (ops : MathOps) (analyzer : Option Analyzer) (top_k : Nat)
    (steps : List (List (Int × VLLMLogprobEntry))) : List UncertaintyMetrics :=
  steps.filterMap (vllmStepMetrics ops analyzer top_k)

/-- Together branch, inner loop body at one index (estimator.py:180-198):
`tokens[step]`, `token_logprobs[step]`, `token_ids[step]` are indexed in
parallel (an out-of-range access raises).  One single-candidate step is
built whose probability is `exp logprob`; `raw_entropy` is the
`1 - probability` proxy and `semantic_entropy` is the constant `0.0`. -/
def togetherStepAt (ops : MathOps) (t : TogetherOutput) (step : Nat) :
    Except String UncertaintyMetrics :=
  match t.tokens[step]?, t.token_logprobs[step]?, t.token_ids[step]? with
  | some tok, some lp, some tid =>
    let prob := process_together_logprob ops lp
    .ok
      { raw_entropy := 1 - prob
        semantic_entropy := 0
        token_predictions := [{ token := tok, token_id := tid, logit := lp, probability := prob }] }
  | _, _, _ => .error "IndexError"

/-- Together branch, `for step in range(len(tokens))` (estimator.py:180):
`i` is the current index and `k` the number of remaining iterations. -/
def togetherLoop (ops : MathOps) (t : TogetherOutput) : Nat → Nat → Except String (List UncertaintyMetrics)
  | _, 0 => .ok []
  | i, k + 1 =>
    match togetherStepAt ops t i with
    | .error e => .error e
    | .ok m =>
      match togetherLoop ops t (i + 1) k with
      | .error e => .error e
      | .ok ms => .ok (m :: ms)

/-- Together branch, whole-generation metrics (estimator.py:174-198). -/
def togetherSteps (ops : MathOps) (t : TogetherOutput) : Except String (List UncertaintyMetrics) :=
  togetherLoop ops t 0 t.tokens.length

/-- HuggingFace branch, one step of the loop at estimator.py:207-215:
process the captured logits, then read entropies off `self.analyzer`
(an `AttributeError` if the analyzer is `None`). -/
def hfStep (ops : MathOps) (top_k : Nat) (analyzer : Option Analyzer) (tk : Tokenizer)
    (logits : List (List ℚ)) : Except String UncertaintyMetrics :=
  match process_logits ops top_k tk logits with
  | .error e => .error e
  | .ok token_info =>
    match analyzer with
    | none => .error "AttributeError"
    | some a =>
      .ok
        { raw_entropy := a.calc_raw_entropy (token_info.map fun t => t.probability)
          semantic_entropy := a.calc_semantic_entropy token_info
          token_predictions := token_info }

/-- HuggingFace branch, loop over `processor.captured_logits`
(estimator.py:207); the same loop body serves the VLM score loop
(estimator.py:121-130). -/
def hfSteps (ops : MathOps) (top_k : Nat) (analyzer : Option Analyzer) (tk : Tokenizer) :
    List (List (List ℚ)) → Except String (List UncertaintyMetrics)
  | [] => .ok []
  | l :: ls =>
    match hfStep ops top_k analyzer tk l with
    | .error e => .error e
    | .ok m =>
      match hfSteps ops top_k analyzer tk ls with
      | .error e => .error e
      | .ok ms => .ok (m :: ms)

/-- `analyzerIsVLM`: the `isinstance(self.analyzer, VLMAnalyzer)` probe of
estimator.py:100 (false when the analyzer is `None`). -/
def analyzerIsVLM (cfg : EstimatorConfig) : Bool :=
  match cfg.analyzer with
  | some a => a.isVLM
  | none => false

/-- The four backend paths of `analyze_generation`. -/
inductive BackendPath
  | vlm
  | batched
  | remote
  | dense
  deriving Repr, DecidableEq

/-- Backend detection (estimator.py:100, 134, 174, 201): the `if`/`elif`
chain of `analyze_generation`, in source order. -/
def selectedPath (cfg : EstimatorConfig) (out : GenerationOutput) : BackendPath :=
  if out.attentions.isSome && analyzerIsVLM cfg then .vlm
  else if out.outputs.isSome then .batched
  else if cfg.together_model.isSome then .remote
  else .dense

/-- vLLM branch (estimator.py:134-171): `generation_output.outputs[0]` is
read (raising on an empty list), then the per-step logprob dicts are
processed; `attention_data` stays `None`. -/
def vllmBranch (ops : MathOps) (cfg : EstimatorConfig) (outs : List VLLMOutput) :
    Except String (List UncertaintyMetrics × String × Option AttentionData) :=
  match outs.head? with
  | none => .error "IndexError"
  | some o =>
    .ok (vllmMetrics ops cfg.analyzer cfg.top_k (o.logprobs.getD []), o.text, none)

/-- Together branch (estimator.py:174-198): dict-style access on the
generation output (raising if it is not the Together dict shape). -/
def togetherBranch (ops : MathOps) (out : GenerationOutput) :
    Except String (List UncertaintyMetrics × String × Option AttentionData) :=
  match out.together with
  | none => .error "TypeError"
  | some t =>
    match togetherSteps ops t with
    | .error e => .error e
    | .ok ms => .ok (ms, t.text, none)

/-- HuggingFace branch (estimator.py:200-215): fails with the configuration
error when tokenizer or processor is missing, before any step is processed;
otherwise decodes `sequences[0]` and processes every captured logits
tensor. -/
def hfBranch (ops : MathOps) (cfg : EstimatorConfig) (out : GenerationOutput)
    (tokenizer : Option Tokenizer) (processor : Option Processor) :
    Except String (List UncertaintyMetrics × String × Option AttentionData) :=
  match tokenizer, processor with
  | some tk, some pr =>
    match out.sequences.head? with
    | none => .error "IndexError"
    | some seq0 =>
      match hfSteps ops cfg.top_k cfg.analyzer tk pr.captured_logits with
      | .error e => .error e
      | .ok ms => .ok (ms, tk.decode seq0, none)
  | _, _ => .error "Tokenizer and processor required for HuggingFace models"

/-- VLM branch (estimator.py:102-130): lazy vision-config touch (an
`AttributeError` when `patch_size` is unset and `model` is `None`), input
length from the processor's optional `input_ids`, token decoding and
filtering of whitespace-only token texts, attention-map processing, and the
score loop when `scores` is present. -/
def vlmBranch (ops : MathOps) (cfg : EstimatorConfig) (a : Analyzer) (attns : Attentions)
    (out : GenerationOutput) (model : Option Model) (tokenizer : Option Tokenizer)
    (processor : Option Processor) :
    Except String (List UncertaintyMetrics × String × Option AttentionData) :=
  if a.patch_size.isNone && model.isNone then .error "AttributeError"
  else
    let input_length :=
      match processor with
      | some pr => match pr.input_ids with | some ids => ids.length | none => 0
      | none => 0
    match out.sequences.head? with
    | none => .error "IndexError"
    | some seq0 =>
      match tokenizer with
      | none => .error "AttributeError"
      | some tk =>
        let generated_tokens := seq0.drop input_length
        let generated_text := tk.decode generated_tokens
        let tokens := (generated_tokens.map fun tid => tk.decode [tid]).filter
          fun s => s.trim ≠ ""
        let attention_data := a.process_attention_maps attns tokens
        match out.scores with
        | some scoresList =>
          match hfSteps ops cfg.top_k (some a) tk scoresList with
          | .error e => .error e
          | .ok ms => .ok (ms, generated_text, some attention_data)
        | none => .ok ([], generated_text, some attention_data)

/-- The adapter stage of `analyze_generation` (estimator.py:100-215):
dispatch on the detected backend path and produce the per-step metrics, the
generated text, and the attention payload. -/
def computeBranch (ops : MathOps) (cfg : EstimatorConfig) (out : GenerationOutput)
    (model : Option Model) (tokenizer : Option Tokenizer) (processor : Option Processor) :
    Except String (List UncertaintyMetrics × String × Option AttentionData) :=
  match selectedPath cfg out with
  | .vlm =>
    match cfg.analyzer, out.attentions with
    | some a, some attns => vlmBranch ops cfg a attns out model tokenizer processor
    | _, _ => .error "unreachable"
  | .batched =>
    match out.outputs with
    | some outs => vllmBranch ops cfg outs
    | none => .error "unreachable"
  | .remote => togetherBranch ops out
  | .dense => hfBranch ops cfg out tokenizer processor

/-- `UncertaintyEstimator.analyze_generation` (estimator.py:86-231): run the
adapter stage, then the insight stage (estimator.py:217-225, an
`AttributeError` when the analyzer is `None`), then assemble the result
(estimator.py:227-231). -/
def analyze_generation (ops : MathOps) (cfg : EstimatorConfig) (generation_output : GenerationOutput)
    (model : Option Model) (tokenizer : Option Tokenizer) (processor : Option Processor)
    (prompt : Option String) : Except String UncertaintyAnalysisResult :=
  let input_query := prompt.getD ""
  let is_vlm := generation_output.attentions.isSome && analyzerIsVLM cfg
  match computeBranch ops cfg generation_output model tokenizer processor with
  | .error e => .error e
  | .ok (all_metrics, generated_text, attention_data) =>
    match cfg.analyzer with
    | none => .error "AttributeError"
    | some a =>
      let overall_insight := generate_overall_insight a all_metrics input_query generated_text
        (if is_vlm then attention_data else none)
      .ok (mkResultWithAttention all_metrics overall_insight
        (if is_vlm then attention_data else none))

/-! ### Properties of the descending stable sort -/

theorem sortDescBy_perm (key : α → ℚ) (l : List α) : List.Perm (sortDescBy key l) l :=
  List.perm_insertionSort _ l

theorem sortDescBy_length (key : α → ℚ) (l : List α) :
    (sortDescBy key l).length = l.length :=
  (sortDescBy_perm key l).length_eq

theorem sortDescBy_sorted (key : α → ℚ) (l : List α) :
    (sortDescBy key l).Pairwise (fun a b => key b ≤ key a) := by
  haveI : IsTotal α (fun a b => key b ≤ key a) := ⟨fun a b => le_total (key b) (key a)⟩
  haveI : IsTrans α (fun a b => key b ≤ key a) :=
    ⟨fun _ _ _ hab hbc => le_trans hbc hab⟩
  exact List.sorted_insertionSort _ l

/-- Inserting `x` into any list leaves the sub-list of elements whose key is
`q` unchanged except that `x`, when its own key is `q`, lands in front of all
of them (every element passed over has a strictly larger key). -/
theorem filter_orderedInsert_key (key : α → ℚ) (q : ℚ) (x : α) (l : List α) :
    (List.orderedInsert (fun a b => key b ≤ key a) x l).filter (fun y => key y = q) =
      if key x = q then x :: l.filter (fun y => key y = q)
      else l.filter (fun y => key y = q) := by
  rw [List.orderedInsert_eq_take_drop, List.filter_append]
  have hsplit : l.filter (fun y => key y = q) =
      (l.takeWhile fun b => ¬ key b ≤ key x).filter (fun y => key y = q) ++
        (l.dropWhile fun b => ¬ key b ≤ key x).filter (fun y => key y = q) := by
    rw [← List.filter_append, List.takeWhile_append_dropWhile]
  by_cases hx : key x = q
  · have htake : (l.takeWhile fun b => ¬ key b ≤ key x).filter (fun y => key y = q) = [] := by
      refine List.filter_eq_nil_iff.mpr fun a ha => ?_
      have hpa := List.mem_takeWhile_imp ha
      simp only [decide_eq_true_eq, not_le] at hpa
      simp only [decide_eq_true_eq]
      intro haq
      exact absurd (hx ▸ haq ▸ le_refl (key a)) (not_le.mpr hpa)
    rw [hsplit, htake, List.nil_append, List.nil_append, List.filter_cons]
    simp [hx]
  · rw [hsplit, List.filter_cons]
    simp [hx]

/-- Stability of the descending sort: for every key value `q`, the elements
whose key is `q` appear in the sorted list in their original relative order. -/
theorem sortDescBy_filter_key (key : α → ℚ) (q : ℚ) (l : List α) :
    (sortDescBy key l).filter (fun y => key y = q) = l.filter (fun y => key y = q) := by
  induction l with
  | nil => rfl
  | cons x xs ih =>
    unfold sortDescBy at ih
    show (List.orderedInsert _ x (List.insertionSort _ xs)).filter _ = _
    rw [filter_orderedInsert_key, List.filter_cons]
    by_cases hx : key x = q
    · simp only [hx, if_true]
      rw [ih]
      simp
    · simp only [hx, if_false]
      rw [ih]
      simp [hx]

/-! ### Properties of index pairing -/

theorem withIdx_length (i : Nat) (l : List α) : (withIdx i l).length = l.length := by
  induction l generalizing i with
  | nil => rfl
  | cons x xs ih => simp [withIdx, ih]

theorem mem_withIdx (i : Nat) (l : List α) (n : Nat) (x : α)
    (h : (n, x) ∈ withIdx i l) : ∃ j, n = i + j ∧ l[j]? = some x := by
  induction l generalizing i with
  | nil => simp [withIdx] at h
  | cons y ys ih =>
    simp only [withIdx, List.mem_cons] at h
    rcases h with h | h
    · obtain ⟨hn, hx⟩ := Prod.mk.injEq .. ▸ h
      exact ⟨0, by simp [Prod.ext_iff] at h; omega, by
        simp [Prod.ext_iff] at h
        simp [h.2]⟩
    · obtain ⟨j, hj, hget⟩ := ih (i + 1) h
      exact ⟨j + 1, by omega, by simpa using hget⟩

theorem withIdx_map_snd (i : Nat) (l : List α) : (withIdx i l).map Prod.snd = l := by
  induction l generalizing i with
  | nil => rfl
  | cons x xs ih => simp [withIdx, ih]

/-! ### Properties of the softmax row and of top-k selection -/

theorem softmaxRow_length (ops : MathOps) (row : List ℚ) :
    (softmaxRow ops row).length = row.length := by
  simp [softmaxRow]

theorem softmaxRow_mem_bounds (ops : MathOps) (hpos : ∀ x, 0 < ops.exp x)
    (row : List ℚ) (p : ℚ) (hp : p ∈ softmaxRow ops row) : 0 < p ∧ p ≤ 1 := by
  simp only [softmaxRow] at hp
  rw [List.mem_map] at hp
  obtain ⟨e, he, hep⟩ := hp
  subst hep
  have hepos : 0 < e := by
    rw [List.mem_map] at he
    obtain ⟨x, _, rfl⟩ := he
    exact hpos x
  have hsum : e ≤ (row.map ops.exp).sum := by
    refine List.single_le_sum (fun x hx => ?_) e he
    rw [List.mem_map] at hx
    obtain ⟨y, _, rfl⟩ := hx
    exact le_of_lt (hpos y)
  have hspos : 0 < (row.map ops.exp).sum := lt_of_lt_of_le hepos hsum
  exact ⟨div_pos hepos hspos, (div_le_one hspos).mpr hsum⟩

theorem topkDesc_ok (xs : List ℚ) (k : Nat) (hk : k ≤ xs.length) :
    ∃ pairs, topkDesc xs k = some pairs ∧
      pairs.length = k ∧
      pairs.Pairwise (fun a b => b.2 ≤ a.2) ∧
      ∀ p ∈ pairs, p ∈ withIdx 0 xs := by
  refine ⟨(sortDescBy (fun p => p.2) (withIdx 0 xs)).take k, ?_, ?_, ?_, ?_⟩
  · unfold topkDesc
    rw [if_pos hk]
  · rw [List.length_take, sortDescBy_length, withIdx_length]
    omega
  · exact (sortDescBy_sorted (fun p => p.2) (withIdx 0 xs)).sublist
      (List.take_sublist k _)
  · intro p hp
    have hmem : p ∈ sortDescBy (fun p => p.2) (withIdx 0 xs) :=
      (List.take_sublist k _).mem hp
    exact (sortDescBy_perm (fun p => p.2) (withIdx 0 xs)).mem_iff.mp hmem

/-- `_process_logits` on a batch whose first row is `row`, with `k` at most
the vocabulary size: exactly `k` candidates, sorted descending by
probability, each probability a softmax output in (0, 1], each candidate
carrying the raw logit and the decoded text of its own vocabulary index. -/
theorem process_logits_ok (ops : MathOps) (k : Nat) (tk : Tokenizer)
    (row : List ℚ) (rest : List (List ℚ))
    (hk : k ≤ row.length) (hpos : ∀ x, 0 < ops.exp x) :
    ∃ ti, process_logits ops k tk (row :: rest) = .ok ti ∧
      ti.length = k ∧
      ti.Pairwise (fun a b => b.probability ≤ a.probability) ∧
      (∀ c ∈ ti, 0 < c.probability ∧ c.probability ≤ 1) ∧
      (∀ c ∈ ti, ∃ i : Nat, i < row.length ∧ c.token_id = (i : Int) ∧
        c.token = tk.decode [i] ∧ c.logit = row.getD i 0 ∧
        (softmaxRow ops row)[i]? = some c.probability) := by
  have hk' : k ≤ (softmaxRow ops row).length := by rw [softmaxRow_length]; exact hk
  obtain ⟨pairs, htop, hlen, hsort, hmem⟩ := topkDesc_ok (softmaxRow ops row) k hk'
  refine ⟨pairs.map fun pr =>
    { token := tk.decode [pr.1], token_id := (pr.1 : Int),
      logit := row.getD pr.1 0, probability := pr.2 }, ?_, ?_, ?_, ?_, ?_⟩
  · simp only [process_logits, List.head?_cons, htop]
  · simp [hlen]
  · exact List.pairwise_map.mpr hsort
  · intro c hc
    simp only [List.mem_map] at hc
    obtain ⟨pr, hpr, rfl⟩ := hc
    obtain ⟨j, hj, hget⟩ := mem_withIdx 0 _ pr.1 pr.2 (by
      have := hmem pr hpr
      simpa using this)
    have hmem2 : pr.2 ∈ softmaxRow ops row := by
      obtain ⟨hlt, heq⟩ := List.getElem?_eq_some.mp hget
      exact heq ▸ List.getElem_mem hlt
    exact softmaxRow_mem_bounds ops hpos row pr.2 hmem2
  · intro c hc
    simp only [List.mem_map] at hc
    obtain ⟨pr, hpr, rfl⟩ := hc
    obtain ⟨j, hj, hget⟩ := mem_withIdx 0 _ pr.1 pr.2 (by
      have := hmem pr hpr
      simpa using this)
    have hj' : pr.1 = j := by omega
    subst hj'
    have hlt := (List.getElem?_eq_some.mp hget).1
    rw [softmaxRow_length] at hlt
    exact ⟨pr.1, hlt, rfl, rfl, rfl, hget⟩

/-! ### The Together loop -/

theorem togetherLoop_ok (ops : MathOps) (t : TogetherOutput)
    (hlp : t.token_logprobs.length = t.tokens.length)
    (hid : t.token_ids.length = t.tokens.length) :
    ∀ k i, i + k = t.tokens.length →
      ∃ ms, togetherLoop ops t i k = .ok ms ∧ ms.length = k ∧
        ∀ j tok lp tid, t.tokens[i + j]? = some tok →
          t.token_logprobs[i + j]? = some lp → t.token_ids[i + j]? = some tid →
          ms[j]? = some
            { raw_entropy := 1 - ops.exp lp, semantic_entropy := 0,
              token_predictions :=
                [{ token := tok, token_id := tid, logit := lp, probability := ops.exp lp }],
              insight := none } := by
  intro k
  induction k with
  | zero =>
    intro i hi
    refine ⟨[], rfl, rfl, ?_⟩
    intro j tok lp tid htok _ _
    have hj := (List.getElem?_eq_some.mp htok).1
    omega
  | succ k ih =>
    intro i hi
    have hit : i < t.tokens.length := by omega
    have hilp : i < t.token_logprobs.length := by omega
    have hiid : i < t.token_ids.length := by omega
    have htok : t.tokens[i]? = some (t.tokens.get ⟨i, hit⟩) := by
      simp [List.getElem?_eq_getElem hit]
    have hlp' : t.token_logprobs[i]? = some (t.token_logprobs.get ⟨i, hilp⟩) := by
      simp [List.getElem?_eq_getElem hilp]
    have hid' : t.token_ids[i]? = some (t.token_ids.get ⟨i, hiid⟩) := by
      simp [List.getElem?_eq_getElem hiid]
    have hstep : togetherStepAt ops t i = .ok
        { raw_entropy := 1 - ops.exp (t.token_logprobs.get ⟨i, hilp⟩), semantic_entropy := 0,
          token_predictions := [{ token := t.tokens.get ⟨i, hit⟩,
                                  token_id := t.token_ids.get ⟨i, hiid⟩,
                                  logit := t.token_logprobs.get ⟨i, hilp⟩,
                                  probability := ops.exp (t.token_logprobs.get ⟨i, hilp⟩) }],
          insight := none } := by
      unfold togetherStepAt
      rw [htok, hlp', hid']
      rfl
    obtain ⟨ms, hms, hlen, hidx⟩ := ih (i + 1) (by omega)
    refine ⟨{ raw_entropy := 1 - ops.exp (t.token_logprobs.get ⟨i, hilp⟩), semantic_entropy := 0,
              token_predictions := [{ token := t.tokens.get ⟨i, hit⟩,
                                      token_id := t.token_ids.get ⟨i, hiid⟩,
                                      logit := t.token_logprobs.get ⟨i, hilp⟩,
                                      probability := ops.exp (t.token_logprobs.get ⟨i, hilp⟩) }],
              insight := none } :: ms, ?_, by simp [hlen], ?_⟩
    · show togetherLoop ops t i (k + 1) = _
      unfold togetherLoop
      rw [hstep, hms]
    · intro j tok lp tid h1 h2 h3
      cases j with
      | zero =>
        simp only [Nat.add_zero] at h1 h2 h3
        rw [htok] at h1
        rw [hlp'] at h2
        rw [hid'] at h3
        obtain rfl := Option.some.inj h1
        obtain rfl := Option.some.inj h2
        obtain rfl := Option.some.inj h3
        simp
      | succ j' =>
        have hsh : i + (j' + 1) = (i + 1) + j' := by omega
        rw [hsh] at h1 h2 h3
        simpa using hidx j' tok lp tid h1 h2 h3

/-! ### Branch helpers -/

theorem hfBranch_missing (ops : MathOps) (cfg : EstimatorConfig) (out : GenerationOutput)
    (tokenizer : Option Tokenizer) (processor : Option Processor)
    (h : tokenizer = none ∨ processor = none) :
    hfBranch ops cfg out tokenizer processor =
      .error "Tokenizer and processor required for HuggingFace models" := by
  rcases h with rfl | rfl
  · cases processor <;> rfl
  · cases tokenizer <;> rfl

theorem analyze_generation_dense_missing (ops : MathOps) (cfg : EstimatorConfig)
    (out : GenerationOutput) (model : Option Model) (tokenizer : Option Tokenizer)
    (processor : Option Processor) (prompt : Option String)
    (hsel : selectedPath cfg out = .dense)
    (h : tokenizer = none ∨ processor = none) :
    analyze_generation ops cfg out model tokenizer processor prompt =
      .error "Tokenizer and processor required for HuggingFace models" := by
  unfold analyze_generation computeBranch
  rw [hsel, hfBranch_missing ops cfg out tokenizer processor h]

/-! ### Concrete fixtures for witnesses and counterexamples -/

/-- A concrete instantiation of the abstract real operations. -/
def opsW : MathOps := { exp := fun _ => 1, log := fun _ => 0 }

/-- A concrete tokenizer. -/
def tokW : Tokenizer := { decode := fun _ => "t" }

/-- A plain non-VLM analyzer with the default (succeeding) insight backend. -/
def anaW : Analyzer := {}

/-- An analyzer whose insight backend always fails with a timeout. -/
def anaFail : Analyzer := { insightBackend := fun _ _ _ _ => .error "timeout" }

/-- A local (non-remote) estimator configuration. -/
def cfgPlain : EstimatorConfig := { top_k := 5, analyzer := some anaW }

/-- A configuration built by `__init__` with a remote model id. -/
def cfgRemote : EstimatorConfig :=
  UncertaintyEstimator.init 100 (some anaW) (some "meta-llama")

/-- A remote configuration whose analyzer's insight backend fails. -/
def cfgFail : EstimatorConfig :=
  { top_k := 5, analyzer := some anaFail, together_model := some "m" }

/-- A one-token Together response. -/
def togetherW : TogetherOutput :=
  { text := "hi", tokens := ["a"], token_logprobs := [-(1 : ℚ)], token_ids := [7] }

/-- A generation output of the Together dict shape. -/
def outRemote : GenerationOutput := { together := some togetherW }

/-- A zero-token Together response wrapped as a generation output. -/
def outEmptyRemote : GenerationOutput := { together := some { text := "t" } }

/-- A vLLM-shaped output with exactly one step that carries zero
log-probability entries. -/
def outEmptyStep : GenerationOutput :=
  { outputs := some [{ text := "txt", logprobs := some [[]] }] }

/-- A bare generation output matching none of the structural probes. -/
def outDense : GenerationOutput := {}

/-! ### Claims -/

/-- C4: the estimator configuration forces `top_k` to the API cap of 5 at
construction time whenever a remote model id is set, and keeps the caller's
requested value otherwise (estimator.py:32). -/
theorem init_top_k_cap (top_k : Nat) (analyzer : Option Analyzer) (m : String) :
    (UncertaintyEstimator.init top_k analyzer (some m)).top_k = 5 ∧
    (UncertaintyEstimator.init top_k analyzer none).top_k = top_k :=
  ⟨rfl, rfl⟩

/-- C7 (divergence witness): the result record constructed at
estimator.py:227-231 is fully determined by `token_metrics` and
`overall_insight`; the `attention_data` argument passed there is discarded,
because `models.py`'s `UncertaintyAnalysisResult` declares no such field. -/
theorem attention_data_discarded (tm : List UncertaintyMetrics) (oi : Option String)
    (ad ad' : Option AttentionData) :
    mkResultWithAttention tm oi ad = { token_metrics := tm, overall_insight := oi } ∧
    mkResultWithAttention tm oi ad = mkResultWithAttention tm oi ad' :=
  ⟨rfl, rfl⟩

/-- C10: the logits-capturing processor is an identity on the scores it
intercepts: it returns the very scores tensor it received and only appends
a copy of it to the captured list. -/
theorem logits_processor_identity (captured : List (List (List ℚ)))
    (ids : List Nat) (scores : List (List ℚ)) :
    (UncertaintyLogitsProcessor.call captured ids scores).2 = scores ∧
    (UncertaintyLogitsProcessor.call captured ids scores).1 = captured ++ [scores] :=
  ⟨rfl, rfl⟩

/-- C3: for a batched-serving step with `m` log-probability entries, the
adapter's candidate list has length `min top_k m`, is sorted descending by
log-probability, has `probability = exp logprob` on every candidate, draws
every candidate from the supplied entries (no synthetic padding), and the
underlying sort is stable: for every key value the entries with that
log-probability keep their original insertion order. -/
theorem batched_adapter_candidates (ops : MathOps) (top_k : Nat)
    (token_data : List (Int × VLLMLogprobEntry)) :
    (vllmStepCandidates ops top_k token_data).length = min top_k token_data.length ∧
    (vllmStepCandidates ops top_k token_data).Pairwise (fun a b => b.logit ≤ a.logit) ∧
    (∀ c ∈ vllmStepCandidates ops top_k token_data, c.probability = ops.exp c.logit) ∧
    (∀ c ∈ vllmStepCandidates ops top_k token_data, ∃ e ∈ token_data,
      e.1 = c.token_id ∧ e.2.logprob = c.logit ∧ e.2.decoded_token = c.token) ∧
    (∀ q : ℚ,
      (sortDescBy (fun x => x.2.1)
          (token_data.map fun p => (p.1, p.2.logprob, p.2.decoded_token))).filter
        (fun x => x.2.1 = q) =
      (token_data.map fun p => (p.1, p.2.logprob, p.2.decoded_token)).filter
        (fun x => x.2.1 = q)) := by
  refine ⟨?_, ?_, ?_, ?_, ?_⟩
  · unfold vllmStepCandidates
    rw [List.length_map, List.length_take, sortDescBy_length, List.length_map]
  · unfold vllmStepCandidates
    refine List.pairwise_map.mpr ?_
    exact (sortDescBy_sorted (fun x : Int × ℚ × String => x.2.1) _).sublist
      (List.take_sublist top_k _)
  · intro c hc
    simp only [vllmStepCandidates, List.mem_map] at hc
    obtain ⟨x, _, rfl⟩ := hc
    rfl
  · intro c hc
    simp only [vllmStepCandidates, List.mem_map] at hc
    obtain ⟨x, hx, rfl⟩ := hc
    have hxs : x ∈ sortDescBy (fun x : Int × ℚ × String => x.2.1)
        (token_data.map fun p => (p.1, p.2.logprob, p.2.decoded_token)) :=
      (List.take_sublist top_k _).mem hx
    have hxi : x ∈ token_data.map fun p => (p.1, p.2.logprob, p.2.decoded_token) :=
      (sortDescBy_perm _ _).mem_iff.mp hxs
    rw [List.mem_map] at hxi
    obtain ⟨e, he, rfl⟩ := hxi
    exact ⟨e, he, rfl, rfl, rfl⟩
  · intro q
    exact sortDescBy_filter_key (fun x : Int × ℚ × String => x.2.1) q _

/-- C5 (amended): a batched-serving step for which the backend supplies zero
candidates is skipped entirely — it contributes no step-metrics record — and
the analysis of the remaining steps proceeds unchanged, with the same final
`analyze_generation` value as if the empty step were not present. -/
theorem empty_step_skipped (ops : MathOps) (analyzer : Option Analyzer) (k : Nat)
    (pre post : List (List (Int × VLLMLogprobEntry))) :
    vllmMetrics ops analyzer k (pre ++ [] :: post) = vllmMetrics ops analyzer k (pre ++ post) ∧
    ∀ (cfg : EstimatorConfig) (txt : String) (model : Option Model)
      (tokenizer : Option Tokenizer) (processor : Option Processor) (prompt : Option String),
      analyze_generation ops cfg
          { outputs := some [{ text := txt, logprobs := some (pre ++ [] :: post) }] }
          model tokenizer processor prompt =
        analyze_generation ops cfg
          { outputs := some [{ text := txt, logprobs := some (pre ++ post) }] }
          model tokenizer processor prompt := by
  have hnil : vllmStepMetrics ops analyzer k [] = none := by
    simp [vllmStepMetrics, vllmStepCandidates, sortDescBy]
  have hmain : vllmMetrics ops analyzer k (pre ++ [] :: post) =
      vllmMetrics ops analyzer k (pre ++ post) := by
    unfold vllmMetrics
    rw [List.filterMap_append, List.filterMap_append, List.filterMap_cons, hnil]
  refine ⟨hmain, ?_⟩
  intro cfg txt model tokenizer processor prompt
  have hnil' : vllmStepMetrics ops cfg.analyzer cfg.top_k [] = none := by
    simp [vllmStepMetrics, vllmStepCandidates, sortDescBy]
  have hm : vllmMetrics ops cfg.analyzer cfg.top_k (pre ++ [] :: post) =
      vllmMetrics ops cfg.analyzer cfg.top_k (pre ++ post) := by
    unfold vllmMetrics
    rw [List.filterMap_append, List.filterMap_append, List.filterMap_cons, hnil']
  simp [analyze_generation, computeBranch, selectedPath, vllmBranch, hm]

/-- C5 (counterexample): a batched-serving generation with exactly one step
whose log-probability dict is empty yields an analysis whose `token_metrics`
list is empty — the step is dropped, not emitted with an empty candidate
sequence. -/
theorem empty_step_dropped_counterexample :
    analyze_generation opsW cfgPlain outEmptyStep none none none none =
      .ok { token_metrics := [], overall_insight := some "" } ∧
    ¬ ∃ r, analyze_generation opsW cfgPlain outEmptyStep none none none none = .ok r ∧
      r.token_metrics.length = 1 := by
  constructor
  · rfl
  · rintro ⟨r, hr, hlen⟩
    rw [show analyze_generation opsW cfgPlain outEmptyStep none none none none =
      (.ok { token_metrics := [], overall_insight := some "" } :
        Except String UncertaintyAnalysisResult) from rfl] at hr
    obtain rfl := Except.ok.inj hr
    simp at hlen

/-- C1: backend detection follows the priority order of the source's
`if`/`elif` chain — attentions-plus-VLM-analyzer first, then the `outputs`
attribute, then the configured remote model id, else the dense-logits path,
which additionally demands tokenizer and processor and otherwise fails with
the configuration error. -/
theorem backend_dispatch_priority (ops : MathOps) (cfg : EstimatorConfig)
    (out : GenerationOutput) (model : Option Model) (tokenizer : Option Tokenizer)
    (processor : Option Processor) (prompt : Option String) :
    (out.attentions.isSome = true → analyzerIsVLM cfg = true →
      selectedPath cfg out = .vlm) ∧
    (¬(out.attentions.isSome = true ∧ analyzerIsVLM cfg = true) →
      out.outputs.isSome = true → selectedPath cfg out = .batched) ∧
    (¬(out.attentions.isSome = true ∧ analyzerIsVLM cfg = true) →
      out.outputs.isSome = false → cfg.together_model.isSome = true →
      selectedPath cfg out = .remote) ∧
    (¬(out.attentions.isSome = true ∧ analyzerIsVLM cfg = true) →
      out.outputs.isSome = false → cfg.together_model.isSome = false →
      selectedPath cfg out = .dense) ∧
    (selectedPath cfg out = .dense → tokenizer = none ∨ processor = none →
      analyze_generation ops cfg out model tokenizer processor prompt =
        .error "Tokenizer and processor required for HuggingFace models") := by
  refine ⟨?_, ?_, ?_, ?_, ?_⟩
  · intro h1 h2
    simp [selectedPath, h1, h2]
  · intro h ho
    have hand : (out.attentions.isSome && analyzerIsVLM cfg) = false := by
      cases ha : out.attentions.isSome <;> cases hb : analyzerIsVLM cfg <;> simp_all
    simp [selectedPath, hand, ho]
  · intro h ho ht
    have hand : (out.attentions.isSome && analyzerIsVLM cfg) = false := by
      cases ha : out.attentions.isSome <;> cases hb : analyzerIsVLM cfg <;> simp_all
    simp [selectedPath, hand, ho, ht]
  · intro h ho ht
    have hand : (out.attentions.isSome && analyzerIsVLM cfg) = false := by
      cases ha : out.attentions.isSome <;> cases hb : analyzerIsVLM cfg <;> simp_all
    simp [selectedPath, hand, ho, ht]
  · intro hsel hmiss
    exact analyze_generation_dense_missing ops cfg out model tokenizer processor prompt
      hsel hmiss

/-- C1 (witness): on a concrete Together-shaped output with a non-VLM
analyzer and a remote model id configured, the remote path is selected. -/
theorem backend_dispatch_priority_witness : selectedPath cfgRemote outRemote = .remote :=
  (backend_dispatch_priority opsW cfgRemote outRemote none none none none).2.2.1
    (by decide) (by decide) (by decide)

/-- C8: when the dense-logits path is selected and tokenizer or processor is
missing, `analyze_generation` fails with the configuration error — no
partial result is produced, whatever the captured logits were. -/
theorem dense_missing_collaborator_error (ops : MathOps) (cfg : EstimatorConfig)
    (out : GenerationOutput) (model : Option Model) (tokenizer : Option Tokenizer)
    (processor : Option Processor) (prompt : Option String)
    (hsel : selectedPath cfg out = .dense)
    (hmiss : tokenizer = none ∨ processor = none) :
    analyze_generation ops cfg out model tokenizer processor prompt =
      .error "Tokenizer and processor required for HuggingFace models" :=
  analyze_generation_dense_missing ops cfg out model tokenizer processor prompt hsel hmiss

/-- C8 (witness): a concrete dense-path invocation with no tokenizer fails
with the configuration error. -/
theorem dense_missing_collaborator_error_witness :
    analyze_generation opsW cfgPlain outDense none none none none =
      .error "Tokenizer and processor required for HuggingFace models" :=
  dense_missing_collaborator_error opsW cfgPlain outDense none none none none
    rfl (Or.inl rfl)

/-- C6: when the per-step metrics were computed and the insight backend call
fails, `analyze_generation` still returns the full `token_metrics` sequence
with `overall_insight` absent; the failure does not propagate. -/
theorem insight_failure_recovered (ops : MathOps) (cfg : EstimatorConfig)
    (out : GenerationOutput) (model : Option Model) (tokenizer : Option Tokenizer)
    (processor : Option Processor) (prompt : Option String)
    (ms : List UncertaintyMetrics) (gt : String) (ad : Option AttentionData)
    (a : Analyzer) (msg : String)
    (hbranch : computeBranch ops cfg out model tokenizer processor = .ok (ms, gt, ad))
    (hana : cfg.analyzer = some a)
    (hfail : a.insightBackend ms (prompt.getD "") gt
      (if out.attentions.isSome && analyzerIsVLM cfg then ad else none) = .error msg) :
    analyze_generation ops cfg out model tokenizer processor prompt =
      .ok { token_metrics := ms, overall_insight := none } := by
  simp only [analyze_generation, hbranch, hana, generate_overall_insight, hfail,
    mkResultWithAttention]

/-- C6 (witness): a concrete remote run whose insight backend times out
still returns its (empty) metrics with no overall insight. -/
theorem insight_failure_recovered_witness :
    analyze_generation opsW cfgFail outEmptyRemote none none none none =
      .ok { token_metrics := [], overall_insight := none } :=
  insight_failure_recovered opsW cfgFail outEmptyRemote none none none none
    [] "t" none anaFail "timeout" rfl rfl rfl

/-- C2: a remote-API generation with n emitted tokens yields exactly n
step-metric records, each with a single candidate whose probability is
`exp logprob`, `raw_entropy = 1 - exp logprob` and `semantic_entropy = 0`. -/
theorem remote_adapter_metrics (ops : MathOps) (cfg : EstimatorConfig)
    (out : GenerationOutput) (model : Option Model) (tokenizer : Option Tokenizer)
    (processor : Option Processor) (prompt : Option String)
    (t : TogetherOutput) (a : Analyzer)
    (hsel : selectedPath cfg out = .remote)
    (htog : out.together = some t)
    (hana : cfg.analyzer = some a)
    (hlp : t.token_logprobs.length = t.tokens.length)
    (hid : t.token_ids.length = t.tokens.length) :
    ∃ r : UncertaintyAnalysisResult,
      analyze_generation ops cfg out model tokenizer processor prompt = .ok r ∧
      r.token_metrics.length = t.tokens.length ∧
      ∀ (j : Nat) (tok : String) (lp : ℚ) (tid : Int),
        t.tokens[j]? = some tok → t.token_logprobs[j]? = some lp →
        t.token_ids[j]? = some tid →
        r.token_metrics[j]? = some
          { raw_entropy := 1 - ops.exp lp, semantic_entropy := 0,
            token_predictions :=
              [{ token := tok, token_id := tid, logit := lp, probability := ops.exp lp }],
            insight := none } := by
  obtain ⟨ms, hms, hlen, hidx⟩ := togetherLoop_ok ops t hlp hid t.tokens.length 0 (by omega)
  have hsteps : togetherSteps ops t = .ok ms := hms
  have hrun : analyze_generation ops cfg out model tokenizer processor prompt =
      .ok { token_metrics := ms,
            overall_insight := generate_overall_insight a ms (prompt.getD "") t.text none } := by
    simp only [analyze_generation, computeBranch, hsel, togetherBranch, htog, hsteps, hana,
      mkResultWithAttention, ite_self]
  refine ⟨{ token_metrics := ms,
            overall_insight := generate_overall_insight a ms (prompt.getD "") t.text none },
    hrun, by simpa using hlen, ?_⟩
  intro j tok lp tid h1 h2 h3
  have h1' : t.tokens[0 + j]? = some tok := by simpa using h1
  have h2' : t.token_logprobs[0 + j]? = some lp := by simpa using h2
  have h3' : t.token_ids[0 + j]? = some tid := by simpa using h3
  simpa using hidx j tok lp tid h1' h2' h3'

/-- C2 (witness): a concrete one-token remote response yields exactly one
single-candidate record with the 1 - exp(logprob) proxy entropy. -/
theorem remote_adapter_metrics_witness :
    ∃ r : UncertaintyAnalysisResult,
      analyze_generation opsW cfgRemote outRemote none none none none = .ok r ∧
      r.token_metrics.length = togetherW.tokens.length ∧
      ∀ (j : Nat) (tok : String) (lp : ℚ) (tid : Int),
        togetherW.tokens[j]? = some tok →
        togetherW.token_logprobs[j]? = some lp → togetherW.token_ids[j]? = some tid →
        r.token_metrics[j]? = some
          { raw_entropy := 1 - opsW.exp lp, semantic_entropy := 0,
            token_predictions :=
              [{ token := tok, token_id := tid, logit := lp, probability := opsW.exp lp }],
            insight := none } :=
  remote_adapter_metrics opsW cfgRemote outRemote none none none none togetherW anaW
    rfl rfl rfl rfl rfl

/-- C9 (amended): for configured k at most the vocabulary size, the
dense-logits adapter returns exactly k candidates sorted descending by
probability, all probabilities in [0,1], each paired with the raw logit of
its vocabulary index; for k greater than the vocabulary size it errors (see
the counterexample). -/
theorem dense_adapter_topk (ops : MathOps) (k : Nat) (tk : Tokenizer)
    (row : List ℚ) (rest : List (List ℚ))
    (hk : k ≤ row.length) (hpos : ∀ x, 0 < ops.exp x) :
    ∃ ti, process_logits ops k tk (row :: rest) = .ok ti ∧
      ti.length = k ∧
      ti.Pairwise (fun a b => b.probability ≤ a.probability) ∧
      (∀ c ∈ ti, 0 ≤ c.probability ∧ c.probability ≤ 1) ∧
      (∀ c ∈ ti, ∃ i : Nat, i < row.length ∧ c.token_id = (i : Int) ∧
        c.token = tk.decode [i] ∧ c.logit = row.getD i 0 ∧
        (softmaxRow ops row)[i]? = some c.probability) := by
  obtain ⟨ti, h1, h2, h3, h4, h5⟩ := process_logits_ok ops k tk row rest hk hpos
  exact ⟨ti, h1, h2, h3, fun c hc => ⟨le_of_lt (h4 c hc).1, (h4 c hc).2⟩, h5⟩

/-- C9 (counterexample): with a vocabulary of size 2 and configured k = 3,
`_process_logits` errors (`torch.topk` raises when k exceeds the number of
elements) instead of behaving as if k were the vocabulary size. -/
theorem topk_exceeds_vocab_counterexample :
    process_logits opsW 3 tokW [[0, 0]] = .error "selected index k out of range" := rfl

/-- C9 (witness): the amended statement at a concrete one-token vocabulary
with k = 1. -/
theorem dense_adapter_topk_witness :
    (∀ x : ℚ, 0 < opsW.exp x) ∧
    (∃ ti, process_logits opsW 1 tokW [[0]] = .ok ti ∧
      ti.length = 1 ∧
      ti.Pairwise (fun a b => b.probability ≤ a.probability) ∧
      (∀ c ∈ ti, 0 ≤ c.probability ∧ c.probability ≤ 1) ∧
      (∀ c ∈ ti, ∃ i : Nat, i < ([(0 : ℚ)] : List ℚ).length ∧ c.token_id = (i : Int) ∧
        c.token = tokW.decode [i] ∧ c.logit = ([(0 : ℚ)] : List ℚ).getD i 0 ∧
        (softmaxRow opsW [(0 : ℚ)])[i]? = some c.probability)) :=
  ⟨fun _ => one_pos,
    dense_adapter_topk opsW 1 tokW [(0 : ℚ)] [] (by decide) (fun _ => one_pos)⟩
